import Mathlib

/-!
Verification of the ABC/XYZ classification core of the OzonReportX repository
(`scripts/ABC_XYZ_analytics_report.py`), shallowly embedded in Lean 4.

Modelling conventions:
* A pandas cell that may be `NaN` is modelled as `Option ℚ`; `none` stands for
  a missing value (`NaN`).  The monthly pivot built by `pivot_table` with
  `aggfunc="count"` and no `fill_value` leaves `NaN` in every (SKU, month)
  combination that has no rows, and pandas `mean`/`std`/`median`/`sum` with the
  default `skipna=True` ignore those cells; the embedding makes that explicit
  by operating on `keptVals row`, the list of defined cells.
* Machine floats are modelled as exact rationals (`ℚ`); the square root taken
  by `DataFrame.std` forces the standard deviation and the coefficient of
  variation into `ℝ` (`Real.sqrt`), which is why those few definitions are
  `noncomputable`.  All the data plumbing stays computable.
* `round` of Python on `num_months * 0.8` is modelled as `round` on
  `(num_months : ℚ) * (4 / 5)`.  Python rounds the double `num_months * 0.8`
  half-to-even, but `num_months * 4 / 5` has fractional part in
  {0, 1/5, 2/5, 3/5, 4/5}, never 1/2, and the double is within `2⁻⁵⁰·M` of it,
  so for every realistic month count the two roundings agree.
-/

namespace OzonReportX

/-! ## Basic list statistics (pandas `mean` / `std(ddof=0)` / `median`) -/

/-- Defined (non-`NaN`) cells of a pivot row, in order.  Models the values a
pandas reduction with `skipna=True` actually consumes. -/
def keptVals (row : List (Option ℚ)) : List ℚ := row.filterMap id

/-- Arithmetic mean of a list of rationals.  For `l = []` Lean's division by
zero yields `0` where pandas would yield `NaN`; every use below is guarded by
the fact that a pivot row has at least one defined cell. -/
def listMean (l : List ℚ) : ℚ := l.sum / l.length

/-- Population variance (`ddof=0`), the square of `numpy.std(·, ddof=0)`. -/
def listPopVar (l : List ℚ) : ℚ :=
  (l.map (fun x => (x - listMean l) ^ 2)).sum / l.length

/-- Insertion of a value into an ascending list, the step of `sortAsc`. -/
def insertSorted (a : ℚ) : List ℚ → List ℚ
  | [] => [a]
  | b :: t => if a ≤ b then a :: b :: t else b :: insertSorted a t

/-- Ascending sort (insertion sort; extensionally the sort numpy performs
before taking the median). -/
def sortAsc (l : List ℚ) : List ℚ := l.foldr insertSorted []

/-- Median as computed by pandas / numpy: sort ascending, take the middle
element for an odd count and the mean of the two middle elements for an even
count. -/
def pyMedian (l : List ℚ) : ℚ :=
  let s := sortAsc l
  if s.length % 2 = 1 then s.getD (s.length / 2) 0
  else (s.getD (s.length / 2 - 1) 0 + s.getD (s.length / 2) 0) / 2

/-! ## Python string helpers used by `norm` and the status filter -/

/-- Whitespace characters recognised by Python `str.strip` / `str.split`. -/
def isPySpace (c : Char) : Bool :=
  c == ' ' || c == '\t' || c == '\n' || c == '\r' || c == '\x0b' || c == '\x0c'

/-- Python `str.lower` restricted to the alphabets the repository uses:
ASCII `A`–`Z` and Cyrillic `А`–`Я` map down by 32 code points, `Ё` maps
to `ё`; every other character is returned unchanged. -/
def pyLowerChar (c : Char) : Char :=
  if 'A' ≤ c ∧ c ≤ 'Z' then Char.ofNat (c.toNat + 32)
  else if 'А' ≤ c ∧ c ≤ 'Я' then Char.ofNat (c.toNat + 32)
  else if c = 'Ё' then 'ё'
  else c

/-- Python `str.lower` over a whole string. -/
def pyLower (s : String) : String := String.mk (s.toList.map pyLowerChar)

/-- Python `str.strip`: drop leading and trailing whitespace. -/
def pyStrip (s : String) : String :=
  String.mk
    (((s.toList.dropWhile (fun c => isPySpace c)).reverse.dropWhile
      (fun c => isPySpace c)).reverse)

/-- Python `str.startswith`: the first string begins with the second,
compared character by character. -/
def pyStartsWith (s pre : String) : Bool := pre.toList.isPrefixOf s.toList

/-- Python `str.split()` with no argument: split on runs of whitespace,
discarding empty pieces.  The accumulator carries the current word reversed. -/
def splitWs : List Char → List Char → List (List Char)
  | [], acc => if acc = [] then [] else [acc.reverse]
  | c :: rest, acc =>
    if isPySpace c then
      if acc = [] then splitWs rest [] else acc.reverse :: splitWs rest []
    else splitWs rest (c :: acc)

/-- Header normalisation `norm` from the source: lower-case, collapse
whitespace runs to single spaces (which also strips the ends), then remove
periods. -/
def norm (s : String) : String :=
  let words := splitWs (pyLower s).toList []
  String.mk ((List.intercalate [' '] words).filter (fun c => !(c == '.')))

/-! ## Column aliases and `find_columns` -/

/-- Canonical column keys with their display titles (`CANON`). -/
def CANON : List (String × String) :=
  [("artikul", "Артикул"),
   ("tsena_prodazhi", "Цена продажи"),
   ("kolichestvo_sht", "Количество шт."),
   ("pribyl", "Прибыль"),
   ("data_otgruzki", "Дата отгрузки")]

/-- Accepted header spellings per canonical key (`ALIASES`). -/
def ALIASES : List (String × List String) :=
  [("artikul", ["артикул", "артикулы", "sku", "код", "код товара", "код/артикул"]),
   ("tsena_prodazhi", ["цена продажи", "цена", "продажная цена", "стоимость", "sale price"]),
   ("kolichestvo_sht", ["количество шт.", "кол-во", "количество", "шт", "шт.", "кол-во шт.", "qty"]),
   ("pribyl", ["прибыль", "маржа", "доход", "profit"]),
   ("data_otgruzki", ["дата отгрузки", "отгрузка", "дата поставки", "ship date", "дата"])]

/-- Reverse alias map built by `build_reverse_map`: normalised alias (and
normalised canonical title) to canonical key, in insertion order. -/
def REV : List (String × String) :=
  (ALIASES.flatMap (fun kv => kv.2.map (fun v => (norm v, kv.1)))) ++
    (CANON.map (fun kt => (norm kt.2, kt.1)))

/-- Dictionary lookup in `REV`.  A Python dict keeps the last assignment for a
repeated key, hence the lookup over the reversed association list. -/
def revLookup (s : String) : Option String := REV.reverse.lookup s

/-- Translation of `find_columns`: walk the headers in column order and map
each canonical key to the first header that normalises to one of its
aliases. -/
def find_columns (headers : List String) : List (String × String) :=
  headers.foldl
    (fun acc col =>
      match revLookup (norm col) with
      | some k => if (acc.lookup k).isSome then acc else acc ++ [(k, col)]
      | none => acc)
    []

/-! ## Status filter (merge_folder, lines 230–241) -/

/-- Status value that survives the filter. -/
def DELIVERED_STATUS : String := "delivered"

/-- First column whose normalised header is `статус` or `status`; `none` when
no such column exists. -/
def statusCol (headers : List String) : Option String :=
  headers.find? (fun c => decide (norm c = "статус") || decide (norm c = "status"))

/-- Cell of a row (a header-to-text association list) under a header. -/
def cellValue (row : List (String × String)) (h : String) : String :=
  (row.lookup h).getD ""

/-- Translation of the delivered-status filter: when a status column exists,
keep exactly the rows whose stripped, lower-cased status equals
`delivered`; when no status column exists the frame is left untouched. -/
def filterDelivered (headers : List String) (rows : List (List (String × String))) :
    List (List (String × String)) :=
  match statusCol headers with
  | none => rows
  | some c =>
    rows.filter (fun r => decide (pyLower (pyStrip (cellValue r c)) = DELIVERED_STATUS))

/-! ## Monthly pivot (merge_folder, lines 380–397)

A merged order row carries its SKU and the calendar month parsed from the
shipment date; `none` models a `NaT` date, whose month label is the empty
string and whose column is dropped from the pivot.  `pivot_table` with
`aggfunc="count"` puts the row count into a (SKU, month) cell when at least
one row exists, and `NaN` otherwise. -/

/-- Month key as (year, month); distinct keys produce distinct labels via
`format_month_year`. -/
abbrev MonthKey := ℕ × ℕ

/-- Order row reduced to the fields the XYZ pivot consumes. -/
structure OrderRow where
  artikul : ℤ
  month : Option MonthKey
deriving DecidableEq, Repr

/-- Cell of the monthly pivot: the number of merged rows of SKU `a` in month
`m`, or `none` (pandas `NaN`) when no such row exists. -/
def pivotCell (orders : List OrderRow) (a : ℤ) (m : MonthKey) : Option ℕ :=
  let k := (orders.filter (fun r => decide (r.artikul = a ∧ r.month = some m))).length
  if k = 0 then none else some k

/-- Distinct non-blank month columns of the pivot, in order of first
appearance (rows with an unparseable date have a blank label and are
dropped by line 393 of the source). -/
def pivotMonths (orders : List OrderRow) : List MonthKey :=
  (orders.filterMap (fun r => r.month)).dedup

/-- Pivot row of one SKU over the distinct months, as pandas sees it. -/
def pivotRow (orders : List OrderRow) (a : ℤ) : List (Option ℚ) :=
  (pivotMonths orders).map (fun m => (pivotCell orders a m).map (fun n => (n : ℚ)))

/-! ## Regularity split (lines 394–399) -/

/-- Threshold `round(num_months * 0.8)` (see the header note on rounding). -/
def regularity_threshold (num_months : ℕ) : ℤ :=
  round ((num_months : ℚ) * (4 / 5))

/-- Count of months with a value, `(pivot_raw > 0).sum(axis=1)`: a `NaN`
compares false, a defined count compares by `0 < v`. -/
def months_with_sales (row : List (Option ℚ)) : ℕ :=
  (row.filter (fun c => match c with | some v => decide (0 < v) | none => false)).length

/-- Membership in the irregular (Noreg) group. -/
def mask_noreg (row : List (Option ℚ)) : Bool :=
  decide ((months_with_sales row : ℤ) < regularity_threshold row.length)

/-- Membership in the regular (Reg) group. -/
def mask_reg (row : List (Option ℚ)) : Bool :=
  decide (regularity_threshold row.length ≤ (months_with_sales row : ℤ))

/-! ## Irregular-group statistics (lines 424–434) -/

/-- Row total `df_noreg[month_cols].sum(axis=1)` (`skipna=True`). -/
def noregTotal (row : List (Option ℚ)) : ℚ := (keptVals row).sum

/-- Row mean `df_noreg[month_cols].mean(axis=1)` (`skipna=True`). -/
def noregMean (row : List (Option ℚ)) : ℚ := listMean (keptVals row)

/-- Row population variance underlying `std(axis=1, ddof=0)`. -/
def noregVar (row : List (Option ℚ)) : ℚ := listPopVar (keptVals row)

/-- Row population standard deviation `std(axis=1, ddof=0)`. -/
noncomputable def noregStd (row : List (Option ℚ)) : ℝ := Real.sqrt (noregVar row)

/-- Coefficient of variation `std.div(mean).where(mean != 0, 0)`. -/
noncomputable def cvNoreg (row : List (Option ℚ)) : ℝ :=
  if noregMean row ≠ 0 then noregStd row / (noregMean row : ℝ) else 0

/-! ## CV-to-label maps `_cv_to_rating` and `_cv_to_rating_reg` (lines 407–422)

The source initialises the whole column with the loosest label and then
overwrites with masked assignments, the `== 0` mask last; a later assignment
wins, so the function below tests the masks in reverse assignment order. -/

/-- Label used when the coefficient of variation is zero. -/
def ndLabel : String := "Недостаточно данных"

/-- Noreg label map: `X ≤ 0.25`, `Y ≤ 0.50`, else `Z`; `CV = 0` wins. -/
noncomputable def cv_to_rating (cv : ℝ) : String :=
  if cv = 0 then ndLabel
  else if cv ≤ 0.25 then "X"
  else if cv ≤ 0.50 then "Y"
  else "Z"

/-- Reg label map: `X ≤ 0.20`, `Y1 ≤ 0.35`, `Y2 ≤ 0.50`, else `Y3`;
`CV = 0` wins. -/
noncomputable def cv_to_rating_reg (cv : ℝ) : String :=
  if cv = 0 then ndLabel
  else if cv ≤ 0.20 then "X"
  else if cv ≤ 0.35 then "Y1"
  else if cv ≤ 0.50 then "Y2"
  else "Y3"

/-- Label of an irregular-group pivot row. -/
noncomputable def noregRating (row : List (Option ℚ)) : String :=
  cv_to_rating (cvNoreg row)

/-! ## Regular-group statistics (lines 436–471) -/

/-- Row median `df_reg_orig[month_cols].median(axis=1)` (`skipna=True`). -/
def regMedian (row : List (Option ℚ)) : ℚ := pyMedian (keptVals row)

/-- Winsorization cap `median * 2.5`. -/
def regCap (row : List (Option ℚ)) : ℚ := regMedian row * 2.5

/-- Lower inclusion threshold `median * 0.3`. -/
def threshold_low (row : List (Option ℚ)) : ℚ := regMedian row * 0.3

/-- Row after `clip(upper=cap)`: defined cells are capped at the cap,
missing cells stay missing. -/
def winsorizedRow (row : List (Option ℚ)) : List (Option ℚ) :=
  row.map (Option.map (fun v => min v (regCap row)))

/-- Values the mean/std consume: winsorized defined cells at or above the
lower threshold (`kept = row[row >= th]`, a `NaN` compares false). -/
def regKeptVals (row : List (Option ℚ)) : List ℚ :=
  (keptVals (winsorizedRow row)).filter (fun w => decide (threshold_low row ≤ w))

/-- Mean over the kept values, `NaN` (`none`) when nothing is kept. -/
def mean_winz (row : List (Option ℚ)) : Option ℚ :=
  if regKeptVals row = [] then none else some (listMean (regKeptVals row))

/-- Population variance over the kept values. -/
def var_winz (row : List (Option ℚ)) : Option ℚ :=
  if regKeptVals row = [] then none else some (listPopVar (regKeptVals row))

/-- Population standard deviation over the kept values. -/
noncomputable def std_winz (row : List (Option ℚ)) : Option ℝ :=
  (var_winz row).map (fun (q : ℚ) => Real.sqrt (q : ℝ))

/-- Coefficient of variation
`std_winz.div(mean_winz).where(mean_winz.notna() & (mean_winz != 0), 0)`. -/
noncomputable def cv_reg (row : List (Option ℚ)) : ℝ :=
  match mean_winz row with
  | none => 0
  | some m => if m ≠ 0 then ((std_winz row).getD 0) / (m : ℝ) else 0

/-- Label of a regular-group pivot row. -/
noncomputable def regRating (row : List (Option ℚ)) : String :=
  cv_to_rating_reg (cv_reg row)

/-- Winsorized companion cells `w.where(df_reg_orig[m] > cap_ser)`: the
winsorized value where the original exceeded the cap, `NaN` elsewhere. -/
def winzCompanion (row : List (Option ℚ)) : List (Option ℚ) :=
  row.map (fun c =>
    match c with
    | some v => if regCap row < v then some (min v (regCap row)) else none
    | none => none)

/-- Row total of the regular table, `winsorized.sum(axis=1)`. -/
def regTotal (row : List (Option ℚ)) : ℚ := (keptVals (winsorizedRow row)).sum

/-! ## Spec-side reference definitions

The two definitions below follow the WORDS of the specification (zero-filled
statistics over all M month columns) and exist only to be compared with the
source-derived definitions above. -/

/-- Zero-filled row: the mean the spec describes for the irregular group is
`listMean` of this list. -/
def zeroFilled (row : List (Option ℚ)) : List ℚ := row.map (fun c => c.getD 0)

/-- Mean across all M month columns with missing months counted as 0, as the
spec words it for the irregular group. -/
def specNoregMeanZeroFilled (row : List (Option ℚ)) : ℚ := listMean (zeroFilled row)

/-- Median across all M month columns with missing months counted as 0, as
the spec words it for the regular group. -/
def specRegMedianAllMonths (row : List (Option ℚ)) : ℚ := pyMedian (zeroFilled row)

/-! ## ABC classifier (merge_folder, lines 307–327)

The input is the per-SKU summed profit column of `pivot_abc`, already sorted
descending by `sort_values("Прибыль", ascending=False)`; the definitions take
that sorted list of summed profits. -/

/-- Profit shares: `profit / total` per SKU when the total is nonzero, the
constant `0.0` column otherwise. -/
def abcShares (profits : List ℚ) : List ℚ :=
  if profits.sum ≠ 0 then profits.map (fun p => p / profits.sum)
  else profits.map (fun _ => (0 : ℚ))

/-- Running sums of a column, `Series.cumsum`: entry `i` is the sum of the
first `i + 1` entries. -/
def cumsum (l : List ℚ) : List ℚ :=
  (List.range l.length).map (fun i => (l.take (i + 1)).sum)

/-- Cumulative profit shares. -/
def abcCumShares (profits : List ℚ) : List ℚ := cumsum (abcShares profits)

/-- ABC label from a cumulative share.  The source initialises the column
with "C" and overwrites with masked assignments (`≤ 0.95` then `≤ 0.8`);
the later assignment wins, so the tighter bound is tested first. -/
def abcLabel (c : ℚ) : String :=
  if c ≤ 0.8 then "A" else if c ≤ 0.95 then "B" else "C"

/-- ABC label column. -/
def abcLabels (profits : List ℚ) : List String :=
  (abcCumShares profits).map abcLabel

/-- Rank of an ABC label under the ordering A < B < C (used to state label
monotonicity; not part of the source). -/
def abcRank (s : String) : ℕ :=
  if s = "A" then 0 else if s = "B" then 1 else 2

/-! ## Combined ABC×XYZ sheet «Итог» (lines 571–601) -/

/-- Joined row: SKU with its ABC label and XYZ label, either possibly
missing (`NaN`) after the outer join. -/
structure ItogRow where
  artikul : ℤ
  abc : Option String
  xyz : Option String
deriving DecidableEq, Repr

/-- Combined code: the concatenation of the two labels with missing labels
as empty strings, overridden by `Недостаточно данных` whenever the stripped
XYZ label (a missing label prints as `nan`) equals that marker. -/
def combinedCode (r : ItogRow) : String :=
  if pyStrip (r.xyz.getD "nan") = ndLabel then ndLabel
  else (r.abc.getD "") ++ (r.xyz.getD "")

/-- Primary sort key source `order_abc`: the first character of the combined
code mapped through {A ↦ 0, B ↦ 1, C ↦ 2}, `fillna(99)`. -/
def order_abc_key (s : String) : ℕ :=
  match s.toList with
  | [] => 99
  | c :: _ => if c = 'A' then 0 else if c = 'B' then 1 else if c = 'C' then 2 else 99

/-- Secondary sort key `_xyz_order` applied to the stringified XYZ label. -/
def xyz_order (s0 : String) : ℕ :=
  let s := pyStrip s0
  if s = "X" then 0
  else if pyStartsWith s "Y1" then 1
  else if pyStartsWith s "Y2" then 2
  else if pyStartsWith s "Y3" then 3
  else if s = "Y" then 1
  else if s = "Z" then 4
  else if s = ndLabel then 99
  else 99

/-- Sort key pair (`_s1`, `_s2`) of a joined row, with the final override
that forces rows whose combined code is the insufficient-data marker to
(99, 99). -/
def itogKey (r : ItogRow) : ℕ × ℕ :=
  let comb := pyStrip (combinedCode r)
  if comb = ndLabel then (99, 99)
  else (order_abc_key comb, xyz_order (r.xyz.getD "nan"))

/-- Lexicographic comparison of key pairs, the order `sort_values(["_s1",
"_s2"])` sorts by. -/
def keyLe (x y : ℕ × ℕ) : Bool :=
  decide (x.1 < y.1) || (decide (x.1 = y.1) && decide (x.2 ≤ y.2))

/-- SKUs of the outer join `itog_abc.join(itog_xyz, how="outer")`: every SKU
present in either result, once. -/
def outerJoinKeys (abcT xyzT : List (ℤ × String)) : List ℤ :=
  (abcT.map Prod.fst ++ xyzT.map Prod.fst).dedup

/-- Rows of the outer join: each SKU with the labels found for it. -/
def outerJoin (abcT xyzT : List (ℤ × String)) : List ItogRow :=
  (outerJoinKeys abcT xyzT).map (fun a => ⟨a, abcT.lookup a, xyzT.lookup a⟩)

/-- The «Итог» table: the outer join sorted by the key pair. -/
def itogSorted (abcT xyzT : List (ℤ × String)) : List ItogRow :=
  (outerJoin abcT xyzT).mergeSort (fun r s => keyLe (itogKey r) (itogKey s))

/-! ## Folder merge loop (merge_folder, lines 211–282)

The loop is modelled closely enough to settle the error-propagation claims:
a workbook either fails to open or yields a list of sheet reads, a sheet
read either fails to parse or yields a named sheet.  Every failure branch of
the source prints and continues; no path raises, which is why the outcome
type below has no error constructor. -/

/-- Sheet names the loop reads (`ORDER_SHEET_NAMES`). -/
def ORDER_SHEET_NAMES : List String := ["Заказы", "Orders"]

/-- A successfully parsed sheet. -/
structure NamedSheet where
  sname : String
  headers : List String
  rows : List (List (String × String))
deriving DecidableEq, Repr

/-- Result of `xls.parse(sheet_name)`: a parse failure or a sheet. -/
inductive SheetRead
  | failed (sname msg : String)
  | ok (s : NamedSheet)
deriving DecidableEq, Repr

/-- Result of `pd.ExcelFile(fpath)`: an unreadable workbook or its sheets. -/
inductive FileT
  | unreadable (fname : String)
  | book (fname : String) (sheets : List SheetRead)
deriving DecidableEq, Repr

/-- Contribution of one sheet to the merged table. -/
structure Chunk where
  fname : String
  sname : String
  colMap : List (String × String)
  rows : List (List (String × String))
deriving DecidableEq, Repr

/-- Report entry (file, sheet, message). -/
abbrev ReportEntry := String × String × String

/-- Per-sheet step of the loop: an optional chunk, `report_missing` entries
and `report_partial` entries, in the branch order of the source. -/
def processSheet (fname : String) (sr : SheetRead) :
    Option Chunk × List ReportEntry × List ReportEntry :=
  match sr with
  | .failed sname msg =>
    if sname ∈ ORDER_SHEET_NAMES then (none, [(fname, sname, msg)], [])
    else (none, [], [])
  | .ok s =>
    if s.sname ∈ ORDER_SHEET_NAMES then
      if s.rows = [] then (none, [(fname, s.sname, "лист пустой")], [])
      else
        let df := filterDelivered s.headers s.rows
        if df = [] then (none, [], [])
        else
          let colMap := find_columns s.headers
          if colMap = [] then (none, [(fname, s.sname, "ни один столбец не найден")], [])
          else
            let missing := CANON.filter (fun kt => (colMap.lookup kt.1).isNone)
            let partRep : List ReportEntry :=
              if missing = [] then [] else [(fname, s.sname, "нет столбцов")]
            (some ⟨fname, s.sname, colMap, df⟩, [], partRep)
    else (none, [], [])

/-- Per-file step: an unreadable workbook is logged and skipped, a readable
one contributes its order sheets in order. -/
def processFile (f : FileT) : List Chunk × List ReportEntry × List ReportEntry :=
  match f with
  | .unreadable _ => ([], [], [])
  | .book fname sheets =>
    sheets.foldl
      (fun acc sr =>
        let r := processSheet fname sr
        (acc.1 ++ r.1.toList, acc.2.1 ++ r.2.1, acc.2.2 ++ r.2.2))
      ([], [], [])

/-- Accumulation over the file list, in order. -/
def collectFiles : List FileT → List Chunk × List ReportEntry × List ReportEntry
  | [] => ([], [], [])
  | f :: rest =>
    let r := processFile f
    let acc := collectFiles rest
    (r.1 ++ acc.1, r.2.1 ++ acc.2.1, r.2.2 ++ acc.2.2)

/-- Terminal outcome of `merge_folder`.  The source prints and returns in
every branch; the type deliberately has no exception constructor because no
path of the function raises. -/
inductive MergeOutcome
  | noFiles
  | nothingToMerge (missing : List ReportEntry)
  | merged (chunks : List Chunk) (missing partRep : List ReportEntry)
deriving DecidableEq, Repr

/-- Translation of the merge loop and its two early returns: no Excel files
at all, an empty merged set (`Нечего объединять`), or a merged table with
the two skip reports. -/
def mergeFolder (files : List FileT) : MergeOutcome :=
  if files = [] then .noFiles
  else
    let res := collectFiles files
    if res.1 = [] then .nothingToMerge res.2.1
    else .merged res.1 res.2.1 res.2.2

/-! ## Helper lemmas -/

theorem keptVals_append_none (row : List (Option ℚ)) :
    keptVals (row ++ [none]) = keptVals row := by
  simp [keptVals, List.filterMap_append]

theorem noregMean_append_none (row : List (Option ℚ)) :
    noregMean (row ++ [none]) = noregMean row := by
  rw [noregMean, noregMean, keptVals_append_none]

theorem noregVar_append_none (row : List (Option ℚ)) :
    noregVar (row ++ [none]) = noregVar row := by
  rw [noregVar, noregVar, keptVals_append_none]

theorem regMedian_append_none (row : List (Option ℚ)) :
    regMedian (row ++ [none]) = regMedian row := by
  rw [regMedian, regMedian, keptVals_append_none]

theorem noregTotal_append_none (row : List (Option ℚ)) :
    noregTotal (row ++ [none]) = noregTotal row := by
  rw [noregTotal, noregTotal, keptVals_append_none]

theorem noregMean_ex : noregMean [some 3, none, none] = 3 := by
  rw [noregMean, show keptVals [some 3, none, none] = [3] from rfl, listMean]
  norm_num

theorem noregVar_ex : noregVar [some 3, none, none] = 0 := by
  rw [noregVar, show keptVals [some 3, none, none] = [3] from rfl, listPopVar, listMean]
  norm_num

theorem cvNoreg_ex : cvNoreg [some 3, none, none] = 0 := by
  rw [cvNoreg, if_pos (by rw [noregMean_ex]; norm_num), noregStd, noregVar_ex]
  norm_num [Real.sqrt_zero]

theorem noregRating_ex : noregRating [some 3, none, none] = ndLabel := by
  rw [noregRating, cvNoreg_ex, cv_to_rating, if_pos rfl]

theorem cv_to_rating_cases (cv : ℝ) (h0 : cv ≠ 0) :
    (cv ≤ 0.25 → cv_to_rating cv = "X")
    ∧ (0.25 < cv → cv ≤ 0.50 → cv_to_rating cv = "Y")
    ∧ (0.50 < cv → cv_to_rating cv = "Z") := by
  refine ⟨?_, ?_, ?_⟩
  · intro h
    rw [cv_to_rating, if_neg h0, if_pos h]
  · intro hgt h
    rw [cv_to_rating, if_neg h0, if_neg (not_le.mpr hgt), if_pos h]
  · intro hgt
    rw [cv_to_rating, if_neg h0, if_neg (not_le.mpr (lt_trans (by norm_num) hgt)),
      if_neg (not_le.mpr hgt)]

theorem cv_to_rating_reg_cases (cv : ℝ) (h0 : cv ≠ 0) :
    (cv ≤ 0.20 → cv_to_rating_reg cv = "X")
    ∧ (0.20 < cv → cv ≤ 0.35 → cv_to_rating_reg cv = "Y1")
    ∧ (0.35 < cv → cv ≤ 0.50 → cv_to_rating_reg cv = "Y2")
    ∧ (0.50 < cv → cv_to_rating_reg cv = "Y3") := by
  refine ⟨?_, ?_, ?_, ?_⟩
  · intro h
    rw [cv_to_rating_reg, if_neg h0, if_pos h]
  · intro hgt h
    rw [cv_to_rating_reg, if_neg h0, if_neg (not_le.mpr hgt), if_pos h]
  · intro hgt h
    rw [cv_to_rating_reg, if_neg h0, if_neg (not_le.mpr (lt_trans (by norm_num) hgt)),
      if_neg (not_le.mpr hgt), if_pos h]
  · intro hgt
    rw [cv_to_rating_reg, if_neg h0, if_neg (not_le.mpr (lt_trans (by norm_num) hgt)),
      if_neg (not_le.mpr (lt_trans (by norm_num) hgt)), if_neg (not_le.mpr hgt)]

theorem getD_map_none (f : Option ℚ → Option ℚ) (hf : f none = none)
    (row : List (Option ℚ)) (i : ℕ) :
    (row.map f).getD i none = f (row.getD i none) := by
  rw [List.getD_eq_getElem?_getD, List.getElem?_map, List.getD_eq_getElem?_getD]
  cases row[i]? <;> simp [hf]

/-! ## Claim C1 -/

/-- C1, corrected.  The irregular-group mean and population standard
deviation that feed the coefficient of variation are computed across only
the months in which the SKU has orders (pandas reductions skip the missing
cells of the pivot; nothing is zero-filled); CV = stdev/mean with 0 when the
mean is 0.  A SKU present in exactly 1 of 3 months with count 3 therefore
has mean 3, stdev 0, CV 0, and receives the label «Недостаточно данных». -/
theorem C1_noreg_stats_over_active_months :
    (∀ row : List (Option ℚ), keptVals row ≠ [] →
      noregMean row = (keptVals row).sum / (keptVals row).length
      ∧ noregVar row = listPopVar (keptVals row)
      ∧ (noregMean row ≠ 0 → cvNoreg row = noregStd row / noregMean row)
      ∧ (noregMean row = 0 → cvNoreg row = 0))
    ∧ noregMean [some 3, none, none] = 3
    ∧ noregStd [some 3, none, none] = 0
    ∧ cvNoreg [some 3, none, none] = 0
    ∧ noregRating [some 3, none, none] = ndLabel := by
  refine ⟨fun row _ => ⟨rfl, rfl, ?_, ?_⟩, noregMean_ex, ?_, cvNoreg_ex, noregRating_ex⟩
  · intro h0
    rw [cvNoreg, if_pos h0]
  · intro h0
    rw [cvNoreg, if_neg (by simp [h0])]
  · rw [noregStd, noregVar_ex]
    simp [Real.sqrt_zero]

/-- Witness for C1 at the spec's own example row. -/
theorem C1_witness :
    keptVals [some 3, none, none] ≠ [] ∧
      noregMean [some 3, none, none] =
        (keptVals [some 3, none, none]).sum / (keptVals [some 3, none, none]).length :=
  ⟨by decide, (C1_noreg_stats_over_active_months.1 [some 3, none, none] (by decide)).1⟩

/-- Counterexample to C1 as stated: for the SKU present in 1 of 3 months
with count 3, the code computes the mean over the active months only (3, not
the zero-filled 1), the CV comes out 0 and the label is «Недостаточно
данных», not "Z". -/
theorem C1_counterexample :
    noregMean [some 3, none, none] = 3
    ∧ specNoregMeanZeroFilled [some 3, none, none] = 1
    ∧ (3 : ℚ) ≠ 1
    ∧ noregRating [some 3, none, none] = ndLabel
    ∧ ndLabel ≠ "Z" := by
  refine ⟨noregMean_ex, ?_, by norm_num, noregRating_ex, by decide⟩
  rw [specNoregMeanZeroFilled,
    show zeroFilled [some 3, none, none] = [3, 0, 0] from rfl, listMean]
  norm_num

/-! ## Claim C2 -/

/-- C2, confirmed.  With T = round(M·0.8), a SKU is irregular exactly when
its count of nonzero months is strictly below T, regular exactly when the
count is at least T, and the two masks are complementary; with M = 10 the
threshold is 8, a SKU with 8 nonzero months is regular and one with 7 is
irregular. -/
theorem C2_regularity_split :
    (∀ row : List (Option ℚ),
      (mask_noreg row = true ↔ (months_with_sales row : ℤ) < regularity_threshold row.length)
      ∧ (mask_reg row = true ↔ regularity_threshold row.length ≤ (months_with_sales row : ℤ))
      ∧ mask_reg row = !mask_noreg row)
    ∧ regularity_threshold 10 = 8
    ∧ mask_reg ((List.replicate 8 (some 1) ++ List.replicate 2 none : List (Option ℚ))) = true
    ∧ mask_noreg ((List.replicate 7 (some 1) ++ List.replicate 3 none : List (Option ℚ))) = true := by
  have hth10 : regularity_threshold 10 = 8 := by
    rw [regularity_threshold, round_eq]
    norm_num
  refine ⟨fun row => ⟨?_, ?_, ?_⟩, hth10, ?_, ?_⟩
  · rw [mask_noreg, decide_eq_true_eq]
  · rw [mask_reg, decide_eq_true_eq]
  · rw [mask_reg, mask_noreg, ← decide_not]
    exact decide_eq_decide.mpr not_lt.symm
  · rw [mask_reg,
      show months_with_sales ((List.replicate 8 (some 1) ++ List.replicate 2 none :
        List (Option ℚ))) = 8 from rfl,
      show ((List.replicate 8 (some 1) ++ List.replicate 2 none :
        List (Option ℚ))).length = 10 from rfl,
      hth10]
    decide
  · rw [mask_noreg,
      show months_with_sales ((List.replicate 7 (some 1) ++ List.replicate 3 none :
        List (Option ℚ))) = 7 from rfl,
      show ((List.replicate 7 (some 1) ++ List.replicate 3 none :
        List (Option ℚ))).length = 10 from rfl,
      hth10]
    decide

/-! ## Claim C3 -/

theorem regMedian_ex1 : regMedian [some 1, some 10, none] = 11 / 2 := by
  rw [regMedian, show keptVals [some 1, some 10, none] = [1, 10] from rfl, pyMedian]
  simp only [show sortAsc [1, 10] = [1, 10] from rfl]
  norm_num

theorem specRegMedian_ex1 : specRegMedianAllMonths [some 1, some 10, none] = 1 := by
  rw [specRegMedianAllMonths,
    show zeroFilled [some 1, some 10, none] = [1, 10, 0] from rfl, pyMedian]
  simp only [show sortAsc [1, 10, 0] = [0, 1, 10] from rfl]
  norm_num

theorem regMedian_ex5 : regMedian [some 5, some 5, some 5] = 5 := by
  rw [regMedian, show keptVals [some 5, some 5, some 5] = [5, 5, 5] from rfl, pyMedian]
  simp only [show sortAsc [5, 5, 5] = [5, 5, 5] from rfl]
  norm_num

theorem regKeptVals_ex5 : regKeptVals [some 5, some 5, some 5] = [5, 5, 5] := by
  rw [regKeptVals]
  rw [show winsorizedRow [some 5, some 5, some 5] =
      [some (min 5 (regCap [some 5, some 5, some 5])),
       some (min 5 (regCap [some 5, some 5, some 5])),
       some (min 5 (regCap [some 5, some 5, some 5]))] from rfl]
  rw [show regCap [some 5, some 5, some 5] = 25 / 2 by rw [regCap, regMedian_ex5]; norm_num]
  rw [show threshold_low [some 5, some 5, some 5] = 3 / 2 by
    rw [threshold_low, regMedian_ex5]; norm_num]
  rw [show min (5 : ℚ) (25 / 2) = 5 by norm_num]
  norm_num [keptVals, List.filter_cons, List.filterMap]

theorem mean_winz_ex5 : mean_winz [some 5, some 5, some 5] = some 5 := by
  rw [mean_winz, if_neg (by rw [regKeptVals_ex5]; simp), regKeptVals_ex5]
  rw [show listMean [5, 5, 5] = 5 by rw [listMean]; norm_num]

theorem std_winz_ex5 : std_winz [some 5, some 5, some 5] = some 0 := by
  rw [std_winz, var_winz, if_neg (by rw [regKeptVals_ex5]; simp), regKeptVals_ex5]
  rw [show listPopVar [5, 5, 5] = 0 by rw [listPopVar, listMean]; norm_num]
  simp [Real.sqrt_zero]

theorem cv_reg_ex5 : cv_reg [some 5, some 5, some 5] = 0 := by
  unfold cv_reg
  rw [mean_winz_ex5]
  norm_num [std_winz_ex5]

theorem regRating_ex5 : regRating [some 5, some 5, some 5] = ndLabel := by
  rw [regRating, cv_reg_ex5, cv_to_rating_reg, if_pos rfl]

/-- C3, corrected.  For a regular-group SKU the median is computed over the
months with orders (missing months are skipped, not zero-filled); a defined
month value exceeding median×2.5 is replaced by the cap for the mean/stdev,
with the cap exposed in the winsorized companion cell exactly where a
replacement occurred; a (winsorized) defined value strictly below
median×0.3 is excluded from mean/stdev; with nothing kept the mean/stdev
are null, CV is 0 and the label is «Недостаточно данных»; otherwise mean
and population stdev are taken over the kept values, CV = stdev/mean (0 if
the mean is 0), and a nonzero CV is labelled X ≤ 0.20, Y1 ≤ 0.35,
Y2 ≤ 0.50, else Y3 (CV = 0 maps to «Недостаточно данных»). -/
theorem C3_reg_group_statistics :
    (∀ row : List (Option ℚ), regMedian row = pyMedian (keptVals row))
    ∧ (∀ (row : List (Option ℚ)) (i : ℕ) (v : ℚ), row.getD i none = some v →
        (winsorizedRow row).getD i none =
          some (if regCap row < v then regCap row else v)
        ∧ (winzCompanion row).getD i none =
          (if regCap row < v then some (regCap row) else none))
    ∧ (∀ (row : List (Option ℚ)) (w : ℚ), w ∈ regKeptVals row → threshold_low row ≤ w)
    ∧ (∀ (row : List (Option ℚ)) (w : ℚ), w ∈ keptVals (winsorizedRow row) →
        w < threshold_low row → w ∉ regKeptVals row)
    ∧ (∀ row : List (Option ℚ), regKeptVals row = [] →
        mean_winz row = none ∧ var_winz row = none ∧ cv_reg row = 0
        ∧ regRating row = ndLabel)
    ∧ (∀ row : List (Option ℚ), regKeptVals row ≠ [] →
        mean_winz row = some (listMean (regKeptVals row))
        ∧ std_winz row = some (Real.sqrt (listPopVar (regKeptVals row)))
        ∧ (listMean (regKeptVals row) ≠ 0 →
            cv_reg row = Real.sqrt (listPopVar (regKeptVals row)) / listMean (regKeptVals row))
        ∧ (listMean (regKeptVals row) = 0 → cv_reg row = 0))
    ∧ (∀ cv : ℝ, cv ≠ 0 →
        (cv ≤ 0.20 → cv_to_rating_reg cv = "X")
        ∧ (0.20 < cv → cv ≤ 0.35 → cv_to_rating_reg cv = "Y1")
        ∧ (0.35 < cv → cv ≤ 0.50 → cv_to_rating_reg cv = "Y2")
        ∧ (0.50 < cv → cv_to_rating_reg cv = "Y3")) := by
  refine ⟨fun row => rfl, ?_, ?_, ?_, ?_, ?_, cv_to_rating_reg_cases⟩
  · intro row i v hv
    constructor
    · rw [winsorizedRow, getD_map_none _ rfl row i, hv]
      show some (min v (regCap row)) = some (if regCap row < v then regCap row else v)
      rcases lt_or_le (regCap row) v with h | h
      · rw [if_pos h, min_eq_right (le_of_lt h)]
      · rw [if_neg (not_lt.mpr h), min_eq_left h]
    · rw [winzCompanion, getD_map_none _ rfl row i, hv]
      show (if regCap row < v then some (min v (regCap row)) else none) =
        (if regCap row < v then some (regCap row) else none)
      rcases lt_or_le (regCap row) v with h | h
      · rw [if_pos h, if_pos h, min_eq_right (le_of_lt h)]
      · rw [if_neg (not_lt.mpr h), if_neg (not_lt.mpr h)]
  · intro row w hw
    have := List.of_mem_filter hw
    exact of_decide_eq_true this
  · intro row w _ hlt hmem
    have := List.of_mem_filter hmem
    exact absurd (of_decide_eq_true this) (not_le.mpr hlt)
  · intro row h
    have hm : mean_winz row = none := by rw [mean_winz, if_pos h]
    have hc : cv_reg row = 0 := by
      unfold cv_reg
      rw [hm]
    refine ⟨hm, by rw [var_winz, if_pos h], hc, ?_⟩
    rw [regRating, hc, cv_to_rating_reg, if_pos rfl]
  · intro row h
    have hm : mean_winz row = some (listMean (regKeptVals row)) := by
      rw [mean_winz, if_neg h]
    have hs : std_winz row = some (Real.sqrt (listPopVar (regKeptVals row))) := by
      rw [std_winz, var_winz, if_neg h]
      rfl
    refine ⟨hm, hs, ?_, ?_⟩
    · intro h0
      unfold cv_reg
      rw [hm, hs]
      simp [h0]
    · intro h0
      unfold cv_reg
      rw [hm]
      simp [h0]

/-- Witness for C3 at a row with no kept months: the mean is null, the CV is
treated as 0 and the label is the insufficient-data marker. -/
theorem C3_witness :
    mean_winz ([] : List (Option ℚ)) = none ∧ cv_reg ([] : List (Option ℚ)) = 0
    ∧ regRating ([] : List (Option ℚ)) = ndLabel :=
  ⟨(C3_reg_group_statistics.2.2.2.2.1 [] rfl).1,
    (C3_reg_group_statistics.2.2.2.2.1 [] rfl).2.2.1,
    (C3_reg_group_statistics.2.2.2.2.1 [] rfl).2.2.2⟩

/-- Counterexample to C3 as stated: for the regular-group row with values
1 and 10 in 2 of 3 months the code's median is 11/2 (median over the active
months), not the 1 a median across all M months would give; and for a
constant row the CV is 0 ≤ 0.20 yet the label is «Недостаточно данных»,
not "X". -/
theorem C3_counterexample :
    mask_reg ([some 1, some 10, none] : List (Option ℚ)) = true
    ∧ regMedian [some 1, some 10, none] = 11 / 2
    ∧ specRegMedianAllMonths [some 1, some 10, none] = 1
    ∧ ((11 : ℚ) / 2) ≠ 1
    ∧ regKeptVals [some 5, some 5, some 5] = [5, 5, 5]
    ∧ cv_reg [some 5, some 5, some 5] = 0
    ∧ ((0 : ℝ) ≤ 0.20)
    ∧ regRating [some 5, some 5, some 5] = ndLabel
    ∧ ndLabel ≠ "X" := by
  refine ⟨?_, regMedian_ex1, specRegMedian_ex1, by norm_num, regKeptVals_ex5,
    cv_reg_ex5, by norm_num, regRating_ex5, by decide⟩
  rw [mask_reg,
    show months_with_sales ([some 1, some 10, none] : List (Option ℚ)) = 2 from rfl,
    show ([some 1, some 10, none] : List (Option ℚ)).length = 3 from rfl]
  rw [show regularity_threshold 3 = 2 by rw [regularity_threshold, round_eq]; norm_num]
  decide

/-! ## Claim C4 -/

/-- C4, confirmed.  In both label maps a CV of exactly 0 yields «Недостаточно
данных», taking precedence over every upper-bound check, and for nonzero CV
the tightest satisfied upper bound determines the label. -/
theorem C4_zero_cv_precedence :
    cv_to_rating 0 = ndLabel
    ∧ cv_to_rating_reg 0 = ndLabel
    ∧ (∀ cv : ℝ, cv ≠ 0 →
        (cv ≤ 0.25 → cv_to_rating cv = "X")
        ∧ (0.25 < cv → cv ≤ 0.50 → cv_to_rating cv = "Y")
        ∧ (0.50 < cv → cv_to_rating cv = "Z"))
    ∧ (∀ cv : ℝ, cv ≠ 0 →
        (cv ≤ 0.20 → cv_to_rating_reg cv = "X")
        ∧ (0.20 < cv → cv ≤ 0.35 → cv_to_rating_reg cv = "Y1")
        ∧ (0.35 < cv → cv ≤ 0.50 → cv_to_rating_reg cv = "Y2")
        ∧ (0.50 < cv → cv_to_rating_reg cv = "Y3")) :=
  ⟨if_pos rfl, if_pos rfl, cv_to_rating_cases, cv_to_rating_reg_cases⟩

/-- Witness for C4 at two concrete CV values. -/
theorem C4_witness : cv_to_rating 1 = "Z" ∧ cv_to_rating_reg 0.25 = "Y1" :=
  ⟨(C4_zero_cv_precedence.2.2.1 1 (by norm_num)).2.2 (by norm_num),
    ((C4_zero_cv_precedence.2.2.2 0.25 (by norm_num)).2.1 (by norm_num) (by norm_num))⟩

/-! ## Claims C5 and C6: shared ABC lemmas -/

theorem abcShares_length (profits : List ℚ) :
    (abcShares profits).length = profits.length := by
  rw [abcShares]
  split <;> rw [List.length_map]

theorem cumsum_length (l : List ℚ) : (cumsum l).length = l.length := by
  rw [cumsum, List.length_map, List.length_range]

theorem cumsum_getD (l : List ℚ) (i : ℕ) (h : i < l.length) :
    (cumsum l).getD i 0 = (l.take (i + 1)).sum := by
  rw [cumsum, List.getD_eq_getElem?_getD, List.getElem?_map, List.getElem?_range h]
  rfl

theorem getD_map_div (l : List ℚ) (s : ℚ) (i : ℕ) :
    (l.map (fun p => p / s)).getD i 0 = l.getD i 0 / s := by
  rw [List.getD_eq_getElem?_getD, List.getElem?_map, List.getD_eq_getElem?_getD]
  cases l[i]? <;> simp

theorem sum_take_le_sum_take (l : List ℚ) (hn : ∀ p ∈ l, 0 ≤ p)
    (i j : ℕ) (hij : i ≤ j) : (l.take i).sum ≤ (l.take j).sum := by
  have hsplit := List.take_add l i (j - i)
  rw [show i + (j - i) = j from by omega] at hsplit
  rw [hsplit, List.sum_append]
  have h0 : 0 ≤ ((l.drop i).take (j - i)).sum := by
    apply List.sum_nonneg
    intro x hx
    exact hn x (List.mem_of_mem_drop (List.mem_of_mem_take hx))
  linarith

theorem abcShares_nonneg (profits : List ℚ) (hn : ∀ p ∈ profits, 0 ≤ p) :
    ∀ s ∈ abcShares profits, 0 ≤ s := by
  intro s hs
  rw [abcShares] at hs
  split at hs
  · rename_i htot
    obtain ⟨p, hp, rfl⟩ := List.mem_map.mp hs
    have hpos : 0 < profits.sum := lt_of_le_of_ne (List.sum_nonneg hn) (Ne.symm htot)
    exact div_nonneg (hn p hp) (le_of_lt hpos)
  · obtain ⟨p, hp, rfl⟩ := List.mem_map.mp hs
    exact le_refl 0

theorem abcRank_abcLabel_mono {c d : ℚ} (h : c ≤ d) :
    abcRank (abcLabel c) ≤ abcRank (abcLabel d) := by
  rw [abcLabel, abcLabel]
  split_ifs <;> first | decide | (exfalso; linarith)

theorem abcLabels_getD (profits : List ℚ) (i : ℕ) (hi : i < profits.length) :
    (abcLabels profits).getD i "" = abcLabel ((abcCumShares profits).getD i 0) := by
  have hi2 : i < (abcCumShares profits).length := by
    rw [abcCumShares, cumsum_length, abcShares_length]
    exact hi
  have hi3 : i < (abcLabels profits).length := by
    rw [abcLabels, List.length_map]
    exact hi2
  rw [List.getD_eq_getElem?_getD, List.getElem?_eq_getElem hi3, Option.getD_some,
    List.getD_eq_getElem?_getD, List.getElem?_eq_getElem hi2, Option.getD_some]
  exact List.getElem_map abcLabel

/-! ## Claim C5 -/

/-- C5, confirmed.  Traversing SKUs in descending order of summed profit,
each SKU receives share = profit/total (0 for every SKU when the total is
0), cumulative share = running sum of shares including the current SKU, and
the label A for cumulative share ≤ 0.80, B for ≤ 0.95, else C; when the
total profit is 0 every SKU is labelled "A". -/
theorem C5_abc_classifier (profits : List ℚ) (_hsorted : profits.Sorted (· ≥ ·)) :
    (abcShares profits).length = profits.length
    ∧ (∀ i, i < profits.length →
        (abcShares profits).getD i 0 =
          if profits.sum = 0 then 0 else profits.getD i 0 / profits.sum)
    ∧ (∀ i, i < profits.length →
        (abcCumShares profits).getD i 0 = ((abcShares profits).take (i + 1)).sum)
    ∧ (∀ i, i < profits.length →
        (abcLabels profits).getD i "" = abcLabel ((abcCumShares profits).getD i 0))
    ∧ (profits.sum = 0 → ∀ s ∈ abcLabels profits, s = "A") := by
  refine ⟨abcShares_length profits, ?_, ?_, ?_, ?_⟩
  · intro i hi
    by_cases htot : profits.sum = 0
    · rw [if_pos htot, abcShares, if_neg (not_not.mpr htot), List.getD_eq_getElem?_getD,
        List.getElem?_map]
      cases profits[i]? <;> simp
    · rw [if_neg htot, abcShares, if_pos htot, getD_map_div]
  · intro i hi
    rw [abcCumShares]
    exact cumsum_getD (abcShares profits) i (by rw [abcShares_length]; exact hi)
  · intro i hi
    exact abcLabels_getD profits i hi
  · intro h0 s hs
    rw [abcLabels] at hs
    obtain ⟨c, hc, rfl⟩ := List.mem_map.mp hs
    rw [abcCumShares, cumsum] at hc
    obtain ⟨i, _, rfl⟩ := List.mem_map.mp hc
    have hz : ((abcShares profits).take (i + 1)).sum = 0 := by
      apply List.sum_eq_zero
      intro x hx
      have hx2 := List.mem_of_mem_take hx
      rw [abcShares, if_neg (by simp [h0])] at hx2
      obtain ⟨p, _, rfl⟩ := List.mem_map.mp hx2
      rfl
    rw [hz, abcLabel, if_pos (by norm_num)]

/-- Witness for C5 on a concrete descending profit list. -/
theorem C5_witness : (abcShares [4, 1]).length = 2 :=
  (C5_abc_classifier [4, 1] (by decide)).1.trans rfl

/-! ## Claim C6 -/

/-- C6, corrected.  For a profit distribution with non-negative profits the
cumulative-share sequence is monotonically non-decreasing along the
descending ordering (a negative profit breaks this, see the
counterexample); and unconditionally no SKU with strictly smaller
cumulative share than another receives a worse label under A < B < C. -/
theorem C6_cumshare_monotonicity :
    (∀ profits : List ℚ, (∀ p ∈ profits, 0 ≤ p) →
      ∀ i j : ℕ, i ≤ j → j < (abcCumShares profits).length →
        (abcCumShares profits).getD i 0 ≤ (abcCumShares profits).getD j 0)
    ∧ (∀ (profits : List ℚ) (i j : ℕ), i < (abcCumShares profits).length →
        j < (abcCumShares profits).length →
        (abcCumShares profits).getD i 0 < (abcCumShares profits).getD j 0 →
        abcRank ((abcLabels profits).getD i "") ≤
          abcRank ((abcLabels profits).getD j "")) := by
  have hlen : ∀ profits : List ℚ, (abcCumShares profits).length = profits.length := by
    intro profits
    rw [abcCumShares, cumsum_length, abcShares_length]
  constructor
  · intro profits hn i j hij hj
    have hj2 : j < (abcShares profits).length := by
      rw [abcShares_length, ← hlen]
      exact hj
    have hi2 : i < (abcShares profits).length := lt_of_le_of_lt hij hj2
    rw [abcCumShares, cumsum_getD _ i hi2, cumsum_getD _ j hj2]
    exact sum_take_le_sum_take _ (abcShares_nonneg profits hn) _ _ (by omega)
  · intro profits i j hi hj hlt
    have hi2 : i < profits.length := by rw [← hlen]; exact hi
    have hj2 : j < profits.length := by rw [← hlen]; exact hj
    rw [abcLabels_getD profits i hi2, abcLabels_getD profits j hj2]
    exact abcRank_abcLabel_mono (le_of_lt hlt)

/-- Witness for C6 on a concrete non-negative profit list. -/
theorem C6_witness :
    (abcCumShares [3, 1]).getD 0 0 ≤ (abcCumShares [3, 1]).getD 1 0 :=
  C6_cumshare_monotonicity.1 [3, 1] (by decide) 0 1 (by omega)
    (by rw [abcCumShares, cumsum_length, abcShares_length]; norm_num)

/-- Counterexample to C6 as stated: with the signed profits 10 and −5
(descending order) the shares are 2 and −1, so the cumulative sequence is
[2, 1], which decreases. -/
theorem C6_counterexample :
    List.Sorted (· ≥ ·) ([10, -5] : List ℚ)
    ∧ abcCumShares [10, -5] = [2, 1]
    ∧ ¬ ((abcCumShares [10, -5]).getD 0 0 ≤ (abcCumShares [10, -5]).getD 1 0) := by
  have hsh : abcShares [10, -5] = [2, -1] := by
    rw [abcShares, if_pos] <;> norm_num
  have hcum : abcCumShares [10, -5] = [2, 1] := by
    rw [abcCumShares, hsh, cumsum]
    norm_num [List.range_succ]
  refine ⟨by decide, hcum, ?_⟩
  rw [hcum]
  norm_num

/-! ## Claim C9 -/

/-- C9, confirmed.  Every defined cell of the monthly pivot is a count of at
least 1 (a month with no matching orders yields a missing cell, never 0),
and the irregular-group mean/variance, regular-group median and row totals
are unchanged by adjoining a missing month, i.e. they skip missing months
instead of averaging in zeros. -/
theorem C9_pivot_cells_positive_and_skipna :
    (∀ (orders : List OrderRow) (a : ℤ) (m : MonthKey) (v : ℕ),
        pivotCell orders a m = some v → 1 ≤ v)
    ∧ (∀ (orders : List OrderRow) (a : ℤ) (m : MonthKey),
        pivotCell orders a m = none ↔
          (orders.filter (fun r => decide (r.artikul = a ∧ r.month = some m))).length = 0)
    ∧ (∀ row : List (Option ℚ),
        noregMean (row ++ [none]) = noregMean row
        ∧ noregVar (row ++ [none]) = noregVar row
        ∧ regMedian (row ++ [none]) = regMedian row
        ∧ noregTotal (row ++ [none]) = noregTotal row) := by
  refine ⟨?_, ?_, fun row => ⟨noregMean_append_none row, noregVar_append_none row,
    regMedian_append_none row, noregTotal_append_none row⟩⟩
  · intro orders a m v h
    rw [pivotCell] at h
    split at h
    · exact absurd h (by simp)
    · rename_i hk
      injection h with h2
      omega
  · intro orders a m
    rw [pivotCell]
    split <;> simp_all

/-- Witness for C9: a SKU with two orders in one month yields the defined
cell `some 2`, whose count is at least 1. -/
theorem C9_witness :
    pivotCell [⟨1, some (2025, 10)⟩, ⟨1, some (2025, 10)⟩] 1 (2025, 10) = some 2 ∧ 1 ≤ 2 :=
  ⟨by decide,
    C9_pivot_cells_positive_and_skipna.1 [⟨1, some (2025, 10)⟩, ⟨1, some (2025, 10)⟩]
      1 (2025, 10) 2 (by decide)⟩

/-! ## Claim C10 -/

/-- C10, confirmed.  When no column header normalises to «статус» or
"status" the delivered filter is skipped and every row of the sheet is
retained; when such a column exists, exactly the rows whose stripped,
lower-cased status equals "delivered" survive. -/
theorem C10_status_filter_skipped_without_status_column
    (headers : List String) (rows : List (List (String × String))) :
    ((∀ h0 ∈ headers, norm h0 ≠ "статус" ∧ norm h0 ≠ "status") →
      filterDelivered headers rows = rows)
    ∧ (∀ c, statusCol headers = some c →
      filterDelivered headers rows =
        rows.filter (fun r => decide (pyLower (pyStrip (cellValue r c)) = DELIVERED_STATUS))) := by
  constructor
  · intro hnone
    have hs : statusCol headers = none := by
      rw [statusCol, List.find?_eq_none]
      intro x hx
      simp only [Bool.or_eq_true, decide_eq_true_eq]
      rintro (h1 | h2)
      · exact (hnone x hx).1 h1
      · exact (hnone x hx).2 h2
    rw [filterDelivered, hs]
  · intro c hc
    rw [filterDelivered, hc]

/-- Witness for C10: a sheet with headers matching no status alias keeps all
rows. -/
theorem C10_witness :
    filterDelivered ["Foo", "Bar"] [[("Foo", "1")], [("Foo", "2")]] =
      [[("Foo", "1")], [("Foo", "2")]] :=
  (C10_status_filter_skipped_without_status_column ["Foo", "Bar"]
    [[("Foo", "1")], [("Foo", "2")]]).1 (by decide)

/-! ## Claim C7: shared lemmas -/

theorem lookup_some_mem {α β : Type} [BEq α] [LawfulBEq α]
    (l : List (α × β)) (a : α) (b : β) (h : l.lookup a = some b) : (a, b) ∈ l := by
  induction l with
  | nil => simp [List.lookup] at h
  | cons p t ih =>
    obtain ⟨k, v⟩ := p
    rw [List.lookup] at h
    by_cases hak : a == k
    · simp [hak] at h
      subst h
      have hak2 : a = k := eq_of_beq hak
      subst hak2
      exact List.mem_cons_self _ _
    · simp [hak] at h
      exact List.mem_cons_of_mem _ (ih h)

theorem lookup_isSome_of_mem_keys {α β : Type} [BEq α] [LawfulBEq α]
    (l : List (α × β)) (a : α) (h : a ∈ l.map Prod.fst) : (l.lookup a).isSome := by
  induction l with
  | nil => simp at h
  | cons p t ih =>
    obtain ⟨k, v⟩ := p
    rw [List.lookup]
    by_cases hak : a == k
    · simp [hak]
    · simp only [List.map_cons, List.mem_cons] at h
      rcases h with h | h
      · exact absurd (beq_iff_eq.mpr h) hak
      · simp only [hak]
        exact ih h

theorem keyLe_trans (x y z : ℕ × ℕ) (h1 : keyLe x y = true) (h2 : keyLe y z = true) :
    keyLe x z = true := by
  simp only [keyLe, Bool.or_eq_true, Bool.and_eq_true, decide_eq_true_eq] at h1 h2 ⊢
  omega

theorem keyLe_total (x y : ℕ × ℕ) : (keyLe x y || keyLe y x) = true := by
  simp only [keyLe, Bool.or_eq_true, Bool.and_eq_true, decide_eq_true_eq]
  omega

theorem eq_99_of_keyLe (k : ℕ × ℕ) (h : keyLe (99, 99) k = true)
    (h1 : k.1 ≤ 99) (h2 : k.2 ≤ 99) : k = (99, 99) := by
  obtain ⟨x, y⟩ := k
  simp only [keyLe, Bool.or_eq_true, Bool.and_eq_true, decide_eq_true_eq] at h
  simp only at h1 h2
  have hx : x = 99 ∧ y = 99 := by omega
  rw [hx.1, hx.2]

theorem order_abc_key_le (s : String) : order_abc_key s ≤ 99 := by
  rw [order_abc_key]
  rcases s.toList with _ | ⟨c, t⟩
  · exact le_refl 99
  · show (if c = 'A' then 0 else if c = 'B' then 1 else if c = 'C' then 2 else 99) ≤ 99
    split_ifs <;> omega

theorem xyz_order_le (s : String) : xyz_order s ≤ 99 := by
  rw [xyz_order]
  split_ifs <;> omega

theorem itogKey_le (r : ItogRow) : (itogKey r).1 ≤ 99 ∧ (itogKey r).2 ≤ 99 := by
  rw [itogKey]
  split_ifs with h
  · exact ⟨le_refl 99, le_refl 99⟩
  · exact ⟨order_abc_key_le _, xyz_order_le _⟩

theorem itogKey_of_nd (r : ItogRow) (h : combinedCode r = ndLabel) :
    itogKey r = (99, 99) := by
  rw [itogKey, h]
  rw [if_pos (by decide : pyStrip ndLabel = ndLabel)]

theorem itogKey_artikul_irrel (a b : ℤ) (ab xy : Option String) :
    itogKey ⟨a, ab, xy⟩ = itogKey ⟨b, ab, xy⟩ := rfl

theorem itogKey_ne_top (a : ℤ) (ob : Option String)
    (hob : ob = none ∨ ob = some "A" ∨ ob = some "B" ∨ ob = some "C")
    (s : String)
    (hs : s = "X" ∨ s = "Y" ∨ s = "Y1" ∨ s = "Y2" ∨ s = "Y3" ∨ s = "Z") :
    itogKey ⟨a, ob, some s⟩ ≠ (99, 99) := by
  rw [itogKey_artikul_irrel a 0]
  rcases hob with rfl | rfl | rfl | rfl <;>
    rcases hs with rfl | rfl | rfl | rfl | rfl | rfl <;> decide

theorem itogKey_ne_top_of_no_xyz (a : ℤ) (ob : Option String)
    (hob : ob = some "A" ∨ ob = some "B" ∨ ob = some "C") :
    itogKey ⟨a, ob, none⟩ ≠ (99, 99) := by
  rw [itogKey_artikul_irrel a 0]
  rcases hob with rfl | rfl | rfl <;> decide

theorem itogSorted_pairwise (abcT xyzT : List (ℤ × String)) :
    List.Pairwise (fun r s => keyLe (itogKey r) (itogKey s) = true)
      (itogSorted abcT xyzT) := by
  rw [itogSorted]
  apply List.sorted_mergeSort
  · intro a b c h1 h2
    exact keyLe_trans _ _ _ h1 h2
  · intro a b
    exact keyLe_total _ _

/-! ## Claim C7 -/

/-- C7, confirmed.  The «Итог» sheet outer-joins the ABC and XYZ results on
SKU (a SKU present in either appears); the combined code is the ABC label
concatenated with the XYZ label except that «Недостаточно данных» as XYZ
label forces the combined code to «Недостаточно данных»; the rows come out
sorted by the lexicographic key (ABC rank with missing = 99, XYZ rank
X=0, Y1=1, Y2=2, Y3=3, Y=1, Z=4, missing/insufficient=99), and every
insufficient-data row sorts after every other row. -/
theorem C7_combined_report (abcT xyzT : List (ℤ × String))
    (habc : ∀ p ∈ abcT, p.2 = "A" ∨ p.2 = "B" ∨ p.2 = "C")
    (hxyz : ∀ p ∈ xyzT,
      p.2 ∈ (["X", "Y", "Y1", "Y2", "Y3", "Z", ndLabel] : List String)) :
    (∀ a : ℤ, (a ∈ abcT.map Prod.fst ∨ a ∈ xyzT.map Prod.fst) ↔
        a ∈ (itogSorted abcT xyzT).map ItogRow.artikul)
    ∧ (∀ r ∈ itogSorted abcT xyzT,
        r.abc = abcT.lookup r.artikul ∧ r.xyz = xyzT.lookup r.artikul
        ∧ (r.xyz = some ndLabel → combinedCode r = ndLabel)
        ∧ (r.xyz ≠ some ndLabel →
            combinedCode r = (r.abc.getD "") ++ (r.xyz.getD "")))
    ∧ List.Pairwise (fun r s => keyLe (itogKey r) (itogKey s) = true)
        (itogSorted abcT xyzT)
    ∧ (∀ i j : Fin (itogSorted abcT xyzT).length, i < j →
        combinedCode ((itogSorted abcT xyzT).get i) = ndLabel →
        combinedCode ((itogSorted abcT xyzT).get j) = ndLabel) := by
  have hperm : (itogSorted abcT xyzT).Perm (outerJoin abcT xyzT) :=
    List.mergeSort_perm (outerJoin abcT xyzT) _
  refine ⟨?_, ?_, itogSorted_pairwise abcT xyzT, ?_⟩
  · intro a
    constructor
    · intro h
      rw [List.mem_map]
      refine ⟨⟨a, abcT.lookup a, xyzT.lookup a⟩, ?_, rfl⟩
      rw [hperm.mem_iff, outerJoin, List.mem_map]
      refine ⟨a, ?_, rfl⟩
      rw [outerJoinKeys, List.mem_dedup, List.mem_append]
      exact h
    · intro h
      obtain ⟨r, hr, rfl⟩ := List.mem_map.mp h
      have hr2 := hperm.mem_iff.mp hr
      rw [outerJoin, List.mem_map] at hr2
      obtain ⟨a, ha, rfl⟩ := hr2
      rw [outerJoinKeys, List.mem_dedup, List.mem_append] at ha
      exact ha
  · intro r hr
    have hr2 := hperm.mem_iff.mp hr
    rw [outerJoin, List.mem_map] at hr2
    obtain ⟨a, _, rfl⟩ := hr2
    refine ⟨rfl, rfl, ?_, ?_⟩
    · intro hnd
      rw [combinedCode, hnd]
      rw [if_pos (by decide : pyStrip ((some ndLabel).getD "nan") = ndLabel)]
    · intro hnnd
      have hcond : ¬ (pyStrip ((xyzT.lookup a).getD "nan") = ndLabel) := by
        cases hx : xyzT.lookup a with
        | none => decide
        | some s =>
          have hsmem := hxyz _ (lookup_some_mem xyzT a s hx)
          simp only [List.mem_cons, List.not_mem_nil, or_false] at hsmem
          have hs_ne : s ≠ ndLabel := by
            intro hc
            exact hnnd (by rw [show (⟨a, abcT.lookup a, xyzT.lookup a⟩ : ItogRow).xyz =
              some s from hx, hc])
          rcases hsmem with rfl | rfl | rfl | rfl | rfl | rfl | rfl
          · decide
          · decide
          · decide
          · decide
          · decide
          · decide
          · exact absurd rfl hs_ne
      rw [combinedCode, if_neg hcond]
  · intro i j hij hndi
    have hpair := itogSorted_pairwise abcT xyzT
    have hle := List.pairwise_iff_get.mp hpair i j hij
    have hki : itogKey ((itogSorted abcT xyzT).get i) = (99, 99) :=
      itogKey_of_nd _ hndi
    rw [hki] at hle
    have hbnd := itogKey_le ((itogSorted abcT xyzT).get j)
    have hkj : itogKey ((itogSorted abcT xyzT).get j) = (99, 99) :=
      eq_99_of_keyLe _ hle hbnd.1 hbnd.2
    have hrmem : (itogSorted abcT xyzT).get j ∈ itogSorted abcT xyzT :=
      List.get_mem _ _ _
    have hr2 := hperm.mem_iff.mp hrmem
    rw [outerJoin, List.mem_map] at hr2
    obtain ⟨a, ha, hreq⟩ := hr2
    rw [← hreq] at hkj ⊢
    have hob : abcT.lookup a = none ∨ abcT.lookup a = some "A"
        ∨ abcT.lookup a = some "B" ∨ abcT.lookup a = some "C" := by
      cases hb : abcT.lookup a with
      | none => exact Or.inl rfl
      | some l =>
        have hl := habc _ (lookup_some_mem abcT a l hb)
        rcases hl with rfl | rfl | rfl
        · exact Or.inr (Or.inl rfl)
        · exact Or.inr (Or.inr (Or.inl rfl))
        · exact Or.inr (Or.inr (Or.inr rfl))
    cases hx : xyzT.lookup a with
    | none =>
      exfalso
      rw [outerJoinKeys, List.mem_dedup, List.mem_append] at ha
      have ha2 : a ∈ abcT.map Prod.fst := by
        rcases ha with h | h
        · exact h
        · have hsx := lookup_isSome_of_mem_keys xyzT a h
          rw [hx] at hsx
          simp at hsx
      have hsome := lookup_isSome_of_mem_keys abcT a ha2
      rw [hx] at hkj
      rcases hob with hb | hb | hb | hb
      · rw [hb] at hsome
        simp at hsome
      · rw [hb] at hkj
        exact absurd hkj (itogKey_ne_top_of_no_xyz a (some "A") (Or.inl rfl))
      · rw [hb] at hkj
        exact absurd hkj (itogKey_ne_top_of_no_xyz a (some "B") (Or.inr (Or.inl rfl)))
      · rw [hb] at hkj
        exact absurd hkj (itogKey_ne_top_of_no_xyz a (some "C") (Or.inr (Or.inr rfl)))
    | some s =>
      have hsmem := hxyz _ (lookup_some_mem xyzT a s hx)
      simp only [List.mem_cons, List.not_mem_nil, or_false] at hsmem
      rw [hx] at hkj
      rcases hsmem with rfl | rfl | rfl | rfl | rfl | rfl | rfl
      · exact absurd hkj (itogKey_ne_top a _ hob _ (Or.inl rfl))
      · exact absurd hkj (itogKey_ne_top a _ hob _ (Or.inr (Or.inl rfl)))
      · exact absurd hkj (itogKey_ne_top a _ hob _ (Or.inr (Or.inr (Or.inl rfl))))
      · exact absurd hkj (itogKey_ne_top a _ hob _ (Or.inr (Or.inr (Or.inr (Or.inl rfl)))))
      · exact absurd hkj
          (itogKey_ne_top a _ hob _ (Or.inr (Or.inr (Or.inr (Or.inr (Or.inl rfl))))))
      · exact absurd hkj
          (itogKey_ne_top a _ hob _ (Or.inr (Or.inr (Or.inr (Or.inr (Or.inr rfl))))))
      · rw [combinedCode,
          if_pos (by decide : pyStrip ((some ndLabel).getD "nan") = ndLabel)]

/-- Witness for C7 on two concrete label tables. -/
theorem C7_witness :
    ((3 : ℤ) ∈ ([(1, "A"), (3, "B")] : List (ℤ × String)).map Prod.fst ∨
      (3 : ℤ) ∈ ([(2, "X")] : List (ℤ × String)).map Prod.fst) ↔
      (3 : ℤ) ∈ (itogSorted [(1, "A"), (3, "B")] [(2, "X")]).map ItogRow.artikul :=
  (C7_combined_report [(1, "A"), (3, "B")] [(2, "X")] (by decide) (by decide)).1 3

/-! ## Claim C8 -/

/-- C8, corrected.  Every stage-local error of the merge loop is absorbed:
an unreadable workbook contributes nothing and the remaining files are still
processed, a failing sheet parse contributes no chunk, and when no sheet
contributes anything (for instance because no canonical column resolved
anywhere) the function returns the ordinary `nothingToMerge` outcome with
the per-sheet report — no branch of `merge_folder` raises. -/
theorem C8_no_exception_on_empty_merge :
    (∀ (fname : String) (rest : List FileT),
        collectFiles (FileT.unreadable fname :: rest) = collectFiles rest)
    ∧ (∀ (fname sname msg : String),
        (processSheet fname (SheetRead.failed sname msg)).1 = none)
    ∧ (∀ files : List FileT, files ≠ [] → (collectFiles files).1 = [] →
        mergeFolder files = MergeOutcome.nothingToMerge (collectFiles files).2.1)
    ∧ (∀ files : List FileT, files ≠ [] → (collectFiles files).1 ≠ [] →
        mergeFolder files =
          MergeOutcome.merged (collectFiles files).1 (collectFiles files).2.1
            (collectFiles files).2.2) := by
  refine ⟨?_, ?_, ?_, ?_⟩
  · intro fname rest
    rfl
  · intro fname sname msg
    rw [processSheet]
    split <;> rfl
  · intro files hne hempty
    rw [mergeFolder, if_neg hne]
    show (if (collectFiles files).1 = [] then
        MergeOutcome.nothingToMerge (collectFiles files).2.1
      else MergeOutcome.merged (collectFiles files).1 (collectFiles files).2.1
        (collectFiles files).2.2) = _
    rw [if_pos hempty]
  · intro files hne hnonempty
    rw [mergeFolder, if_neg hne]
    show (if (collectFiles files).1 = [] then
        MergeOutcome.nothingToMerge (collectFiles files).2.1
      else MergeOutcome.merged (collectFiles files).1 (collectFiles files).2.1
        (collectFiles files).2.2) = _
    rw [if_neg hnonempty]

/-- Witness for C8: a folder holding only an unreadable workbook merges to
the ordinary `nothingToMerge` outcome. -/
theorem C8_witness :
    mergeFolder [FileT.unreadable "bad.xlsx"] =
      MergeOutcome.nothingToMerge (collectFiles [FileT.unreadable "bad.xlsx"]).2.1 :=
  C8_no_exception_on_empty_merge.2.2.1 [FileT.unreadable "bad.xlsx"] (by decide) (by decide)

/-- Counterexample to C8 as stated: on a folder whose only order sheet has
no recognisable canonical column at all, `merge_folder` does not raise — it
returns the ordinary `nothingToMerge` outcome carrying the per-sheet
report. -/
theorem C8_counterexample :
    mergeFolder
        [FileT.book "a.xlsx" [SheetRead.ok ⟨"Заказы", ["Foo", "Bar"], [[("Foo", "1")]]⟩]] =
      MergeOutcome.nothingToMerge [("a.xlsx", "Заказы", "ни один столбец не найден")] := by
  decide

end OzonReportX
